import Mathlib

/-!
# Verification of the TRack-AI train traffic control core

Shallow embedding of the scheduling core of the TRack-AI repository:
`src/models/train.py`, `src/models/infrastructure.py`,
`src/optimization/simple_scheduler.py` (the executable scheduler variant;
`src/optimization/scheduler.py` shares the same model helpers and delegates
the solve itself to an external CP-SAT solver).

Python `datetime` values are modelled as integer minutes since a fixed
epoch, Python floats as rationals, Python dicts as insertion-ordered
association lists, and fallible Python code as `Except`-valued functions.
-/

/-- The only Python exception relevant to this development:
`AttributeError`, raised by attribute access on a missing enum member. -/
inductive PyErr where
  | attributeError : PyErr
deriving DecidableEq, Repr

/-- `TrainType` enum from `src/models/train.py` (members EXPRESS, LOCAL,
FREIGHT, MAINTENANCE, SPECIAL — note there is no EMERGENCY member). -/
inductive TrainType where
  | express | local | freight | maintenance | special
deriving DecidableEq, Repr

/-- Attribute access on the `TrainType` enum class by member name:
`none` models the `AttributeError` Python raises for a missing member. -/
def TrainType.member : String → Option TrainType
  | "EXPRESS" => some .express
  | "LOCAL" => some .local
  | "FREIGHT" => some .freight
  | "MAINTENANCE" => some .maintenance
  | "SPECIAL" => some .special
  | _ => none

/-- `TrainPriority` enum (LOW=1 … EMERGENCY=5). -/
inductive TrainPriority where
  | low | medium | high | critical | emergency
deriving DecidableEq, Repr

/-- `.value` of a `TrainPriority` member. -/
def TrainPriority.value : TrainPriority → Nat
  | .low => 1
  | .medium => 2
  | .high => 3
  | .critical => 4
  | .emergency => 5

/-- `SectionType` enum from `src/models/infrastructure.py`; `value` strings
are "single_line", "double_line", "multiple_line", "junction", "yard",
"platform". -/
inductive SectionType where
  | single_line | double_line | multiple_line | junction | yard | platform
deriving DecidableEq, Repr

/-- `SectionStatus` enum from `src/models/infrastructure.py`. -/
inductive SectionStatus where
  | available | occupied | blocked | maintenance | reserved
deriving DecidableEq, Repr

/-- `Train` model (`src/models/train.py`), restricted to the fields the
scheduling core reads. Times are minutes since a fixed epoch. -/
structure Train where
  train_id : String
  train_number : String
  train_type : TrainType
  priority : TrainPriority
  origin_station : String
  destination_station : String
  scheduled_departure : Int
  scheduled_arrival : Int
  actual_departure : Option Int := none
  max_speed : Int := 100
  route_sections : List String := []
deriving DecidableEq, Repr

/-- `TrackSection` model (`src/models/infrastructure.py`), restricted to the
fields the core reads or writes. -/
structure TrackSection where
  section_id : String
  section_type : SectionType
  length_km : Rat
  max_speed_limit : Int := 100
  max_trains : Nat := 1
  connected_sections : List String := []
  current_status : SectionStatus := .available
  occupying_trains : List String := []
  reserved_for : Option String := none
deriving DecidableEq, Repr

/-- Lookup in an insertion-ordered association list (a Python dict). -/
def dictGet {α : Type} (d : List (String × α)) (k : String) : Option α :=
  (d.find? (fun p => p.1 == k)).map (fun p => p.2)

/-- Replace the value at an existing key of an association list; a missing
key leaves the dict unchanged (the embedded operations only ever write to a
key they have just looked up). -/
def dictSet {α : Type} : List (String × α) → String → α → List (String × α)
  | [], _, _ => []
  | (k', v') :: rest, k, v =>
      if k' == k then (k', v) :: rest else (k', v') :: dictSet rest k v

/-- `RailwayNetwork` model (`src/models/infrastructure.py`), restricted to
the fields the core reads: the sections dict and the adjacency matrix. -/
structure RailwayNetwork where
  sections : List (String × TrackSection) := []
  adjacency_matrix : List (String × List String) := []
deriving DecidableEq, Repr

/-- `RailwayNetwork.get_route_sections` (`src/models/infrastructure.py`,
lines 152–163): identity route for origin = destination, direct adjacency
otherwise, else the empty route. -/
def RailwayNetwork.get_route_sections (net : RailwayNetwork)
    (origin destination : String) : List String :=
  if origin = destination then [origin]
  else
    match dictGet net.adjacency_matrix origin with
    | some adj => if destination ∈ adj then [origin, destination] else []
    | none => []

/-- `calculate_priority_score` (`src/models/train.py`, lines 120–142).
The `type_multipliers` dict literal in the source evaluates its keys first;
its first key is `TrainType.EMERGENCY`, which is not a member of
`TrainType` (EMERGENCY is a `TrainPriority` member), so the literal's
evaluation raises `AttributeError` on every call before any multiplier can
be applied. Delay is `actual − scheduled` departure in minutes; the penalty
converts it to hours and caps it at 2. -/
def calculate_priority_score (train : Train) : Except PyErr Rat := do
  let base_score : Rat := (train.priority.value : Rat)
  let emergency ← match TrainType.member "EMERGENCY" with
    | some k => Except.ok k
    | none => Except.error PyErr.attributeError
  let type_multipliers : List (TrainType × Rat) :=
    [(emergency, 2), (.express, 3/2), (.local, 1), (.freight, 4/5),
     (.maintenance, 1/2)]
  let type_multiplier : Rat :=
    ((type_multipliers.find? (fun p => decide (p.1 = train.train_type))).map
      (fun p => p.2)).getD 1
  let delay_penalty : Rat :=
    match train.actual_departure with
    | some ad =>
        if (ad - train.scheduled_departure : Int) > 0 then
          min (((ad - train.scheduled_departure : Int) : Rat) / 60) 2
        else 0
    | none => 0
  return base_score * type_multiplier + delay_penalty

/-- Python `int()` applied to a rational: truncation toward zero. -/
def pyInt (q : Rat) : Int := q.num.tdiv (q.den : Int)

/-- `SimpleTrainScheduler._get_train_route`
(`src/optimization/simple_scheduler.py`, lines 172–178): the explicit
route when non-empty, else direct-adjacency resolution. -/
def getTrainRoute (net : RailwayNetwork) (train : Train) : List String :=
  if train.route_sections ≠ [] then train.route_sections
  else net.get_route_sections train.origin_station train.destination_station

/-- Buffer minutes looked up from the section-type dict in
`_estimate_section_travel_time` (default 2 for kinds absent from the dict:
multiple_line and yard). -/
def sectionBuffer : SectionType → Int
  | .platform => 5
  | .junction => 3
  | .single_line => 2
  | .double_line => 1
  | _ => 2

/-- `SimpleTrainScheduler._estimate_section_travel_time`
(`src/optimization/simple_scheduler.py`, lines 180–204; the identical code
appears in `scheduler.py`, lines 234–258): 10 minutes for an unknown
section; otherwise `int(length / min(speeds) * 60)` plus the section-kind
buffer, floored at 1; 10 minutes again when the effective speed is not
positive. -/
def estimate_section_travel_time (net : RailwayNetwork) (train : Train)
    (section_id : String) : Int :=
  match dictGet net.sections section_id with
  | none => 10
  | some sec =>
      let speed_kmh : Int := min train.max_speed sec.max_speed_limit
      if speed_kmh > 0 then
        let travel_minutes : Int :=
          pyInt (sec.length_km / (speed_kmh : Rat) * 60)
        max (travel_minutes + sectionBuffer sec.section_type) 1
      else 10

/-- One entry of a train schedule's `sections` list
(`_schedule_single_train`): a scheduled occupancy window on one section. -/
structure SectionSchedule where
  section_id : String
  start_time : Int
  end_time : Int
  duration : Int
deriving DecidableEq, Repr

/-- The per-train schedule dict built by `_schedule_single_train`. -/
structure TrainScheduleEntry where
  train_id : String
  train_number : String
  priority : Nat
  sections : List SectionSchedule
deriving DecidableEq, Repr

/-- The section-by-section walk inside `_schedule_single_train`
(`src/optimization/simple_scheduler.py`, lines 155–168): each section gets
the window `[current_time, current_time + travel_time)` and `current_time`
advances by the travel time. -/
def scheduleSections (net : RailwayNetwork) (train : Train) :
    Int → List String → List SectionSchedule
  | _, [] => []
  | current_time, section_id :: rest =>
      let travel_time := estimate_section_travel_time net train section_id
      ⟨section_id, current_time, current_time + travel_time, travel_time⟩ ::
        scheduleSections net train (current_time + travel_time) rest

/-- `SimpleTrainScheduler._schedule_single_train`
(`src/optimization/simple_scheduler.py`, lines 141–170): `none` for an
unresolvable (empty) route, otherwise the walk from time 0. -/
def schedule_single_train (net : RailwayNetwork) (train : Train) :
    Option TrainScheduleEntry :=
  let route_sections := getTrainRoute net train
  if route_sections = [] then none
  else some ⟨train.train_id, train.train_number, train.priority.value,
             scheduleSections net train 0 route_sections⟩

/-- The metrics dict of `SimpleTrainScheduler.optimize_schedule`. -/
structure Metrics where
  total_trains : Nat
  scheduled_trains : Nat
  average_delay : Rat
  solver_status : String
deriving DecidableEq, Repr

/-- The result dict of `SimpleTrainScheduler.optimize_schedule` (the
always-empty `movements` list is omitted). -/
structure ScheduleResult where
  status : String
  trains : List TrainScheduleEntry
  metrics : Metrics
deriving DecidableEq, Repr

/-- The delay its schedule contributes to `total_delay` in
`optimize_schedule` (lines 44–50): `max 0 (last end_time − 120)` when the
sections list is non-empty, 0 otherwise. -/
def entryDelay (entry : TrainScheduleEntry) : Int :=
  match entry.sections.getLast? with
  | some last_section => max 0 (last_section.end_time - 120)
  | none => 0

/-- `SimpleTrainScheduler.optimize_schedule`
(`src/optimization/simple_scheduler.py`, lines 21–66). Python's `sorted`
first evaluates the key function on every element, so scoring errors
propagate out of the sort; `calculate_priority_score` raises on every
train, hence any non-empty input errors here. The `time_horizon_hours`
parameter is accepted but never read by this variant. `mergeSort` with a
`≥`-on-scores comparator is a stable descending sort, matching
`sorted(…, reverse=True)`. -/
def optimize_schedule (net : RailwayNetwork) (trains : List Train)
    (_time_horizon_hours : Int := 24) : Except PyErr ScheduleResult := do
  let keyed ← trains.mapM (fun t => do
    let s ← calculate_priority_score t
    return (s, t))
  let sorted_trains := (keyed.mergeSort (fun a b => decide (b.1 ≤ a.1))).map
    (fun p => p.2)
  let scheduled_trains := sorted_trains.filterMap (schedule_single_train net)
  let total_delay : Int := (scheduled_trains.map entryDelay).sum
  return { status := "optimal"
           trains := scheduled_trains
           metrics :=
             { total_trains := trains.length
               scheduled_trains := scheduled_trains.length
               average_delay :=
                 (total_delay : Rat) / (max scheduled_trains.length 1 : Rat)
               solver_status := "OPTIMAL" } }

/-- `TrainConflict` model (`src/models/train.py`). -/
structure TrainConflict where
  conflict_id : String
  train_ids : List String
  section_id : String
  conflict_type : String
  conflict_start : Int
  conflict_end : Int
  severity : Nat
deriving DecidableEq, Repr

/-- Append a train to a key's list in the insertion-ordered
`section_usage` dict (`detect_conflicts`, lines 74–81): a fresh key is
appended at the end, an existing key's list grows in place. -/
def usageAppend (d : List (String × List Train)) (section_id : String)
    (train : Train) : List (String × List Train) :=
  match d with
  | [] => [(section_id, [train])]
  | (k, v) :: rest =>
      if k == section_id then (k, v ++ [train]) :: rest
      else (k, v) :: usageAppend rest section_id train

/-- The `section_usage` dict of `detect_conflicts`: every train is
appended under every section of its resolved route, once per occurrence of
the section in the route. -/
def sectionUsage (net : RailwayNetwork) (trains : List Train) :
    List (String × List Train) :=
  trains.foldl
    (fun d train => (getTrainRoute net train).foldl
      (fun d section_id => usageAppend d section_id train) d)
    []

/-- All index-ordered pairs of a list, in the order the nested
`for i / for j in range(i+1, …)` loops of `detect_conflicts` produce
them. -/
def orderedPairs {α : Type} : List α → List (α × α)
  | [] => []
  | x :: xs => (xs.map (fun y => (x, y))) ++ orderedPairs xs

/-- The `TrainConflict` record built for one pair of trains in
`detect_conflicts` (lines 95–103). -/
def mkConflict (section_id : String) (t1 t2 : Train) : TrainConflict :=
  { conflict_id :=
      "CONF_" ++ t1.train_id ++ "_" ++ t2.train_id ++ "_" ++ section_id
    train_ids := [t1.train_id, t2.train_id]
    section_id := section_id
    conflict_type := "capacity_exceeded"
    conflict_start := min t1.scheduled_departure t2.scheduled_departure
    conflict_end := max t1.scheduled_arrival t2.scheduled_arrival
    severity := 3 }

/-- The conflicts one `section_usage` entry contributes
(`detect_conflicts`, lines 84–104): all pairs, provided more than one
occurrence, a known section, and more occurrences than `max_trains`. -/
def entryConflicts (net : RailwayNetwork)
    (entry : String × List Train) : List TrainConflict :=
  if entry.2.length > 1 then
    match dictGet net.sections entry.1 with
    | some sec =>
        if entry.2.length > sec.max_trains then
          (orderedPairs entry.2).map (fun p => mkConflict entry.1 p.1 p.2)
        else []
    | none => []
  else []

/-- `SimpleTrainScheduler.detect_conflicts`
(`src/optimization/simple_scheduler.py`, lines 68–106; the identical code
appears in `scheduler.py`, lines 143–187). -/
def detect_conflicts (net : RailwayNetwork) (trains : List Train) :
    List TrainConflict :=
  (sectionUsage net trains).flatMap (entryConflicts net)

/-- `RailwayNetwork.reserve_section` (`src/models/infrastructure.py`,
lines 196–207). Python mutates the section in place and returns a boolean;
the embedding returns the flag together with the resulting network, the
network being returned unchanged on every failing path. -/
def reserve_section (net : RailwayNetwork) (section_id train_id : String) :
    Bool × RailwayNetwork :=
  match dictGet net.sections section_id with
  | none => (false, net)
  | some sec =>
      if sec.current_status = .available ∧ sec.reserved_for = none then
        let sec' := { sec with reserved_for := some train_id,
                               current_status := SectionStatus.reserved }
        (true, { net with sections := dictSet net.sections section_id sec' })
      else (false, net)

/-- `RailwayNetwork.occupy_section` (`src/models/infrastructure.py`,
lines 209–223): requires an available or reserved section with spare
capacity; appends the train, marks the section occupied and clears any
reservation. -/
def occupy_section (net : RailwayNetwork) (section_id train_id : String) :
    Bool × RailwayNetwork :=
  match dictGet net.sections section_id with
  | none => (false, net)
  | some sec =>
      if (sec.current_status = .available ∨ sec.current_status = .reserved)
          ∧ sec.occupying_trains.length < sec.max_trains then
        let sec' := { sec with
                      occupying_trains := sec.occupying_trains ++ [train_id],
                      current_status := SectionStatus.occupied,
                      reserved_for := none }
        (true, { net with sections := dictSet net.sections section_id sec' })
      else (false, net)

/-- `RailwayNetwork.release_section` (`src/models/infrastructure.py`,
lines 225–239): `list.remove` drops the first occurrence of the train;
the status reverts to available only when the occupant list empties. -/
def release_section (net : RailwayNetwork) (section_id train_id : String) :
    Bool × RailwayNetwork :=
  match dictGet net.sections section_id with
  | none => (false, net)
  | some sec =>
      if train_id ∈ sec.occupying_trains then
        let remaining := sec.occupying_trains.erase train_id
        let sec' := { sec with
                      occupying_trains := remaining,
                      current_status :=
                        if remaining = [] then SectionStatus.available
                        else sec.current_status }
        (true, { net with sections := dictSet net.sections section_id sec' })
      else (false, net)

/-- One call to a mutation operation of `RailwayNetwork`. -/
inductive NetOp where
  | reserve (section_id train_id : String)
  | occupy (section_id train_id : String)
  | release (section_id train_id : String)
deriving DecidableEq, Repr

/-- The network state after one operation (the boolean flag dropped). -/
def NetOp.apply (net : RailwayNetwork) : NetOp → RailwayNetwork
  | .reserve sid tid => (reserve_section net sid tid).2
  | .occupy sid tid => (occupy_section net sid tid).2
  | .release sid tid => (release_section net sid tid).2

/-- The network state after a sequence of operations. -/
def applyOps (net : RailwayNetwork) (ops : List NetOp) : RailwayNetwork :=
  ops.foldl NetOp.apply net

/-- The impact dict of `SimpleRealTimeOptimizer._calculate_schedule_impact`
(`src/optimization/simple_scheduler.py`, lines 258–268). `improvement` is
`none` on the early-return path, whose dict carries no such key. -/
structure Impact where
  changes : Nat
  affected_trains : List String
  improvement : Option Bool
deriving DecidableEq, Repr

/-- `SimpleRealTimeOptimizer._calculate_schedule_impact`
(`src/optimization/simple_scheduler.py`, lines 258–268; the identical code
appears in `scheduler.py`, lines 373–384). A missing (`None`) schedule on
either side short-circuits to `{changes: 0, affected_trains: []}`;
otherwise `changes` is the absolute difference of the scheduled-train
counts, `affected_trains` lists every train of the new schedule, and
`improvement` compares the average delays strictly. -/
def calculate_schedule_impact (old_schedule new_schedule :
    Option ScheduleResult) : Impact :=
  match old_schedule, new_schedule with
  | some old, some nw =>
      { changes := ((nw.trains.length : Int) - (old.trains.length : Int)).natAbs
        affected_trains := nw.trains.map (fun t => t.train_id)
        improvement :=
          some (decide (nw.metrics.average_delay < old.metrics.average_delay)) }
  | _, _ => { changes := 0, affected_trains := [], improvement := none }

/-! ## Concrete fixtures

A small network and train set mirroring the shapes of
`create_sample_network` and the trains of `src/test_system.py`, used to
evaluate the embedded operations at concrete inputs. -/

/-- A capacity-1 junction section. -/
def secS1 : TrackSection :=
  { section_id := "S1", section_type := .junction, length_km := 2,
    max_speed_limit := 60, max_trains := 1 }

/-- A capacity-1 single-line section. -/
def secS2 : TrackSection :=
  { section_id := "S2", section_type := .single_line, length_km := 10,
    max_speed_limit := 100, max_trains := 1 }

/-- A capacity-2 platform section. -/
def secP1 : TrackSection :=
  { section_id := "P1", section_type := .platform, length_km := 2/5,
    max_speed_limit := 30, max_trains := 2 }

/-- A three-section network. -/
def netA : RailwayNetwork :=
  { sections := [("S1", secS1), ("S2", secS2), ("P1", secP1)],
    adjacency_matrix := [("S1", ["S2"])] }

/-- A high-priority express train routed over the capacity-1 junction. -/
def trainX : Train :=
  { train_id := "TX", train_number := "12001", train_type := .express,
    priority := .high, origin_station := "S1", destination_station := "S2",
    scheduled_departure := 0, scheduled_arrival := 120,
    route_sections := ["S1"] }

/-- A medium-priority local train routed over the same junction. -/
def trainY : Train :=
  { train_id := "TY", train_number := "12002", train_type := .local,
    priority := .medium, origin_station := "S1",
    destination_station := "S2", scheduled_departure := 30,
    scheduled_arrival := 150, route_sections := ["S1"] }

/-- A freight train whose route visits section S1 twice
(non-consecutively), as the `Route` data model permits. -/
def trainZ : Train :=
  { train_id := "TZ", train_number := "16001", train_type := .freight,
    priority := .low, origin_station := "S1", destination_station := "S1",
    scheduled_departure := 60, scheduled_arrival := 240,
    route_sections := ["S1", "S2", "S1"] }

/-! ## Claim theorems -/

/-- C3: the claim states that the derived priority score computation
returns (never fails) base priority × kind multiplier + capped delay
penalty. In the source, the `type_multipliers` dict literal names
`TrainType.EMERGENCY`, which is not a member of `TrainType`, so
`calculate_priority_score` raises `AttributeError` on every call — for
every train, the embedded computation yields the error, never a score. -/
theorem claim_C3_priority_score_always_raises (train : Train) :
    calculate_priority_score train = Except.error PyErr.attributeError := rfl

/-- C2: `optimize_schedule` is deterministic — two calls on identical
inputs (same network, same train list, same horizon) return identical
results. The embedded computation consults no clock and no random source,
so the result is a function of its arguments alone. -/
theorem claim_C2_optimize_schedule_deterministic (net : RailwayNetwork)
    (horizon : Int) (ts1 ts2 : List Train) (heq : ts1 = ts2) :
    optimize_schedule net ts1 horizon = optimize_schedule net ts2 horizon :=
  by rw [heq]

/-- Witness for C2 at a concrete input. -/
theorem claim_C2_witness :
    optimize_schedule netA [trainX, trainY] 24 =
      optimize_schedule netA [trainX, trainY] 24 :=
  claim_C2_optimize_schedule_deterministic netA 24 [trainX, trainY]
    [trainX, trainY] rfl

/-- C4: the claim states `optimize_schedule` reports `infeasible` exactly
when the horizon cannot fit the minimum spans, never crashing, and
otherwise produces a feasible schedule. On the code, a single train with a
non-empty route trivially fitting the 24-hour horizon makes
`optimize_schedule` raise `AttributeError` (via the priority-score sort
key), while the empty input returns status "optimal"; the horizon is never
consulted and no input can produce status "infeasible". -/
theorem claim_C4_optimize_crashes_not_infeasible :
    optimize_schedule netA [trainX] 24 = Except.error PyErr.attributeError
    ∧ optimize_schedule netA ([] : List Train) 24 = Except.ok
        { status := "optimal", trains := [],
          metrics := { total_trains := 0, scheduled_trains := 0,
                       average_delay := 0, solver_status := "OPTIMAL" } } := by
  constructor
  · simp [optimize_schedule, calculate_priority_score, TrainType.member,
      List.mapM.loop, Except.map, Bind.bind, Except.bind]
  · norm_num [optimize_schedule, List.mapM.loop, Except.map, pure,
      Except.pure, Bind.bind, Except.bind, List.mergeSort_nil, zero_div]

/-- C1: the claim states every schedule returned by `optimize_schedule`
keeps simultaneous occupants of each section within its capacity. On the
code, `optimize_schedule` raises `AttributeError` for this (and every
non-empty) train list; moreover the per-train placement
`_schedule_single_train` that builds every returned segment starts every
train at minute 0 without consulting capacity, so the two trains routed
over capacity-1 section S1 are both given the window [0, 5) — two
overlapping segments on a capacity-1 section at instant 0. -/
theorem claim_C1_capacity_not_enforced :
    optimize_schedule netA [trainX, trainY] 24 =
      Except.error PyErr.attributeError
    ∧ schedule_single_train netA trainX =
        some ⟨"TX", "12001", 3, [⟨"S1", 0, 5, 5⟩]⟩
    ∧ schedule_single_train netA trainY =
        some ⟨"TY", "12002", 2, [⟨"S1", 0, 5, 5⟩]⟩
    ∧ (dictGet netA.sections "S1").map TrackSection.max_trains = some 1 := by
  refine ⟨?_, ?_, ?_, ?_⟩
  · simp [optimize_schedule, calculate_priority_score, TrainType.member,
      List.mapM.loop, Except.map, Bind.bind, Except.bind]
  · norm_num [schedule_single_train, scheduleSections, getTrainRoute, trainX,
      estimate_section_travel_time, netA, secS1, secS2, secP1, dictGet, pyInt,
      sectionBuffer, TrainPriority.value]
  · norm_num [schedule_single_train, scheduleSections, getTrainRoute, trainY,
      estimate_section_travel_time, netA, secS1, secS2, secP1, dictGet, pyInt,
      sectionBuffer, TrainPriority.value]
  · simp [dictGet, netA, secS1, secS2, secP1]

/-- Within one call of `_schedule_single_train`, the walk started at time
`t` produces abutting windows: each segment ends where the next starts. -/
theorem scheduleSections_chain (net : RailwayNetwork) (train : Train) :
    ∀ (l : List String) (t : Int),
      List.Chain' (fun a b : SectionSchedule => a.end_time ≤ b.start_time)
        (scheduleSections net train t l) := by
  intro l
  induction l with
  | nil => intro t; simp [scheduleSections]
  | cons sid rest ih =>
      intro t
      rw [scheduleSections, List.chain'_cons']
      refine ⟨?_, ih _⟩
      intro y hy
      cases rest with
      | nil => simp [scheduleSections] at hy
      | cons b rs =>
          simp only [scheduleSections, List.head?_cons, Option.mem_def,
            Option.some.injEq] at hy
          subst hy
          exact le_refl _

/-- Every segment the walk produces spans exactly the estimated travel
time of its section. -/
theorem scheduleSections_duration (net : RailwayNetwork) (train : Train) :
    ∀ (l : List String) (t : Int) (seg : SectionSchedule),
      seg ∈ scheduleSections net train t l →
      seg.end_time - seg.start_time =
        estimate_section_travel_time net train seg.section_id ∧
      seg.duration = estimate_section_travel_time net train seg.section_id := by
  intro l
  induction l with
  | nil => intro t seg h; simp [scheduleSections] at h
  | cons sid rest ih =>
      intro t seg h
      rw [scheduleSections, List.mem_cons] at h
      rcases h with h | h
      · subst h; constructor <;> simp
      · exact ih _ _ h

/-- C5: every train schedule produced by the scheduler's per-train
placement satisfies the precedence constraint — consecutive segments obey
`start(i+1) ≥ end(i)` — and each segment's span is at least (in fact
exactly) the travel-time estimate for that (train, section) pair. Every
train entry of an `optimize_schedule` result is built by this placement. -/
theorem claim_C5_precedence_and_min_duration (net : RailwayNetwork)
    (train : Train) (entry : TrainScheduleEntry)
    (h : schedule_single_train net train = some entry) :
    List.Chain' (fun a b : SectionSchedule => a.end_time ≤ b.start_time)
      entry.sections
    ∧ ∀ seg ∈ entry.sections,
        estimate_section_travel_time net train seg.section_id ≤
          seg.end_time - seg.start_time := by
  simp only [schedule_single_train] at h
  split at h
  · exact absurd h (by simp)
  · rw [Option.some.injEq] at h
    subst h
    refine ⟨scheduleSections_chain net train _ 0, ?_⟩
    intro seg hseg
    exact le_of_eq (scheduleSections_duration net train _ 0 seg hseg).1.symm

/-- Travel-time estimate of `trainZ` on section S1 of `netA`. -/
theorem estimate_netA_trainZ_S1 :
    estimate_section_travel_time netA trainZ "S1" = 5 := by
  have h : dictGet netA.sections "S1" = some secS1 := by simp [dictGet, netA]
  rw [estimate_section_travel_time, h]
  norm_num [secS1, trainZ, pyInt, sectionBuffer]

/-- Travel-time estimate of `trainZ` on section S2 of `netA`. -/
theorem estimate_netA_trainZ_S2 :
    estimate_section_travel_time netA trainZ "S2" = 8 := by
  have h : dictGet netA.sections "S2" = some secS2 := by simp [dictGet, netA]
  rw [estimate_section_travel_time, h]
  norm_num [secS2, trainZ, pyInt, sectionBuffer]

/-- Concrete evaluation of the per-train placement of `trainZ`. -/
theorem schedule_single_train_netA_trainZ :
    schedule_single_train netA trainZ = some
      (TrainScheduleEntry.mk "TZ" "16001" 1
        [⟨"S1", 0, 5, 5⟩, ⟨"S2", 5, 13, 8⟩, ⟨"S1", 13, 18, 5⟩]) := by
  have hroute : getTrainRoute netA trainZ = ["S1", "S2", "S1"] := by
    simp [getTrainRoute, trainZ]
  simp only [schedule_single_train, hroute, scheduleSections,
    estimate_netA_trainZ_S1, estimate_netA_trainZ_S2]
  norm_num [trainZ, TrainPriority.value]
  exact fun hc => absurd hc (by simp)

/-- Witness for C5: the three-section route of `trainZ` on `netA`. -/
theorem claim_C5_witness :
    List.Chain' (fun a b : SectionSchedule => a.end_time ≤ b.start_time)
      (TrainScheduleEntry.mk "TZ" "16001" 1
        [⟨"S1", 0, 5, 5⟩, ⟨"S2", 5, 13, 8⟩, ⟨"S1", 13, 18, 5⟩]).sections
    ∧ ∀ seg ∈ (TrainScheduleEntry.mk "TZ" "16001" 1
        [⟨"S1", 0, 5, 5⟩, ⟨"S2", 5, 13, 8⟩, ⟨"S1", 13, 18, 5⟩]).sections,
        estimate_section_travel_time netA trainZ seg.section_id ≤
          seg.end_time - seg.start_time :=
  claim_C5_precedence_and_min_duration netA trainZ _
    schedule_single_train_netA_trainZ

/-- Truncation toward zero agrees with the floor on non-negative
rationals. -/
theorem pyInt_eq_floor (q : Rat) (h : 0 ≤ q) : pyInt q = ⌊q⌋ := by
  rw [pyInt, Rat.floor_def,
    Int.tdiv_eq_ediv (Rat.num_nonneg.mpr h) (Int.natCast_nonneg _)]

/-- C9: for a section known to the topology with positive effective speed
(and a non-negative length, as any physical section has), the travel-time
estimate is `floor(length / min(train speed, section speed) * 60)` plus the
section-kind buffer (platform 5, junction 3, single-line 2, double-line 1,
otherwise 2), floored at 1 minute; for a section absent from the topology
the estimate is the fixed default of 10 minutes. -/
theorem claim_C9_travel_time_formula (net : RailwayNetwork) (train : Train)
    (sid : String) :
    (dictGet net.sections sid = none →
      estimate_section_travel_time net train sid = 10)
    ∧ (∀ sec : TrackSection, dictGet net.sections sid = some sec →
        0 ≤ sec.length_km →
        0 < min train.max_speed sec.max_speed_limit →
        estimate_section_travel_time net train sid =
          max (⌊sec.length_km /
                ((min train.max_speed sec.max_speed_limit : Int) : Rat) * 60⌋ +
               (match sec.section_type with
                | .platform => 5
                | .junction => 3
                | .single_line => 2
                | .double_line => 1
                | _ => 2)) 1) := by
  constructor
  · intro h; unfold estimate_section_travel_time; rw [h]
  · intro sec hsec hlen hspeed
    unfold estimate_section_travel_time
    rw [hsec]
    simp only [hspeed, if_pos]
    have hq : (0 : Rat) ≤ sec.length_km /
        ((min train.max_speed sec.max_speed_limit : Int) : Rat) * 60 := by
      have : (0 : Rat) < ((min train.max_speed sec.max_speed_limit : Int) : Rat) := by
        exact_mod_cast hspeed
      positivity
    rw [pyInt_eq_floor _ hq]
    cases sec.section_type <;> rfl

/-- Witness for C9: the platform section P1 (and an unknown section) of
`netA`. -/
theorem claim_C9_witness :
    estimate_section_travel_time netA trainX "P1" =
      max (⌊secP1.length_km /
            ((min trainX.max_speed secP1.max_speed_limit : Int) : Rat) * 60⌋ +
           5) 1
    ∧ estimate_section_travel_time netA trainX "ZZZ" = 10 := by
  constructor
  · exact (claim_C9_travel_time_formula netA trainX "P1").2 secP1
      (by simp [dictGet, netA, secS1, secS2, secP1])
      (by norm_num [secP1]) (by norm_num [trainX, secP1])
  · exact (claim_C9_travel_time_formula netA trainX "ZZZ").1
      (by simp [dictGet, netA, secS1, secS2, secP1])

/-- Writing an existing key of a dict and reading it back yields the
written value. -/
theorem dictGet_dictSet_self {α : Type} (d : List (String × α))
    (k : String) (v a : α) (h : dictGet d k = some a) :
    dictGet (dictSet d k v) k = some v := by
  induction d with
  | nil => simp [dictGet] at h
  | cons p rest ih =>
      by_cases hk : p.1 == k
      · simp [dictGet, dictSet, hk]
      · simp only [dictGet, List.find?, hk] at h
        simp only [dictSet, hk]
        rw [show ((p.1, p.2) : String × α) = p from rfl]
        simp only [dictGet, List.find?, hk]
        exact ih h

/-- C7: `reserve_section`, `occupy_section` and `release_section` return a
success flag (total functions in the embedding — the Python code raises no
exception on any path), and every failing call returns the network
unchanged; in particular a second `release_section` for a train that
occupied the section once fails and leaves the state of the first release
untouched. -/
theorem claim_C7_mutations_fail_safely (net : RailwayNetwork)
    (sid tid : String) :
    ((reserve_section net sid tid).1 = false →
      (reserve_section net sid tid).2 = net)
    ∧ ((occupy_section net sid tid).1 = false →
      (occupy_section net sid tid).2 = net)
    ∧ ((release_section net sid tid).1 = false →
      (release_section net sid tid).2 = net)
    ∧ (∀ net' sec, release_section net sid tid = (true, net') →
        dictGet net.sections sid = some sec →
        sec.occupying_trains.count tid = 1 →
        release_section net' sid tid = (false, net')) := by
  refine ⟨?_, ?_, ?_, ?_⟩
  · intro hf
    unfold reserve_section at hf ⊢
    cases hd : dictGet net.sections sid with
    | none => rfl
    | some sec =>
        rw [hd] at hf
        by_cases hc : sec.current_status = SectionStatus.available ∧
          sec.reserved_for = none
        · simp [hc] at hf
        · simp [hc]
  · intro hf
    unfold occupy_section at hf ⊢
    cases hd : dictGet net.sections sid with
    | none => rfl
    | some sec =>
        rw [hd] at hf
        by_cases hc : (sec.current_status = SectionStatus.available ∨
            sec.current_status = SectionStatus.reserved) ∧
          sec.occupying_trains.length < sec.max_trains
        · simp [hc] at hf
        · simp [hc]
  · intro hf
    unfold release_section at hf ⊢
    cases hd : dictGet net.sections sid with
    | none => rfl
    | some sec =>
        rw [hd] at hf
        by_cases hc : tid ∈ sec.occupying_trains
        · simp [hc] at hf
        · simp [hc]
  · intro net' sec hrel hget hcount
    unfold release_section at hrel
    rw [hget] at hrel
    by_cases hmem : tid ∈ sec.occupying_trains
    · dsimp only at hrel
      rw [if_pos hmem, Prod.mk.injEq] at hrel
      have hnet' := hrel.2
      have hget' : dictGet net'.sections sid = some
          { sec with
            occupying_trains := sec.occupying_trains.erase tid,
            current_status :=
              if sec.occupying_trains.erase tid = [] then
                SectionStatus.available
              else sec.current_status } := by
        rw [← hnet']
        exact dictGet_dictSet_self _ _ _ _ hget
      have hnotmem : tid ∉ sec.occupying_trains.erase tid := by
        rw [← List.count_eq_zero, List.count_erase_self, hcount]
      unfold release_section
      rw [hget']
      simp [hnotmem]
    · dsimp only at hrel
      rw [if_neg hmem, Prod.mk.injEq] at hrel
      exact absurd hrel.1 (by simp)

/-- A single-section network whose only section is occupied once by train
T1. -/
def netB : RailwayNetwork :=
  { sections := [("SB",
      { section_id := "SB", section_type := .single_line, length_km := 10,
        max_trains := 1, current_status := .occupied,
        occupying_trains := ["T1"] })] }

/-- Witness for C7: occupying the full section SB fails without mutating
`netB`, and releasing T1 twice fails the second time, leaving the state of
the first release unchanged. -/
theorem claim_C7_witness :
    (occupy_section netB "SB" "T2").2 = netB
    ∧ release_section ((release_section netB "SB" "T1").2) "SB" "T1" =
        (false, (release_section netB "SB" "T1").2) := by
  constructor
  · exact (claim_C7_mutations_fail_safely netB "SB" "T2").2.1 (by decide)
  · exact (claim_C7_mutations_fail_safely netB "SB" "T1").2.2.2
      (release_section netB "SB" "T1").2
      { section_id := "SB", section_type := .single_line, length_km := 10,
        max_trains := 1, current_status := .occupied,
        occupying_trains := ["T1"] }
      (by decide) (by decide) (by decide)

/-- Stated from the claim's wording (spec 4.7), for comparison against the
code: the number of trains whose schedule changed between two results —
trains of the new schedule whose segment list differs from their previous
one, plus trains of the previous schedule that are absent from the new
one. -/
def specChangedTrainCount (old nw : ScheduleResult) : Nat :=
  (nw.trains.filter (fun t =>
    ((old.trains.find? (fun u => u.train_id == t.train_id)).map
      (fun u => u.sections)) ≠ some t.sections)).length
  + (old.trains.filter (fun t =>
      (nw.trains.find? (fun u => u.train_id == t.train_id)).isNone)).length

/-- A previous schedule in which train TX holds window [0, 5) on S1. -/
def oldSched : ScheduleResult :=
  { status := "optimal",
    trains := [⟨"TX", "12001", 3, [⟨"S1", 0, 5, 5⟩]⟩],
    metrics := { total_trains := 1, scheduled_trains := 1,
                 average_delay := 0, solver_status := "OPTIMAL" } }

/-- A new schedule in which the same train TX was moved to [10, 15). -/
def newSched : ScheduleResult :=
  { status := "optimal",
    trains := [⟨"TX", "12001", 3, [⟨"S1", 10, 15, 5⟩]⟩],
    metrics := { total_trains := 1, scheduled_trains := 1,
                 average_delay := 2, solver_status := "OPTIMAL" } }

/-- Counterexample to C8 as stated: between `oldSched` and `newSched`
exactly one train's schedule changed (TX moved from [0,5) to [10,15)), yet
the impact summary reports `changes = 0` — the code reports the absolute
difference of the scheduled-train counts, not the count of trains whose
schedule changed. -/
theorem claim_C8_counterexample :
    (calculate_schedule_impact (some oldSched) (some newSched)).changes = 0
    ∧ specChangedTrainCount oldSched newSched = 1 := by
  constructor <;> decide

/-- C8 as amended: for any pair of present schedules, the impact summary
reports the absolute difference of the scheduled-train counts as
`changes`, lists every train identifier of the new schedule as affected
(hence contains a train X whenever X's segments differ and X appears in
the new schedule), and sets `improvement` to true exactly when the new
average delay is strictly less than the previous one. -/
theorem claim_C8_impact_amended (old nw : ScheduleResult) :
    ((calculate_schedule_impact (some old) (some nw)).changes =
      ((nw.trains.length : Int) - (old.trains.length : Int)).natAbs)
    ∧ (∀ t ∈ nw.trains, t.train_id ∈
        (calculate_schedule_impact (some old) (some nw)).affected_trains)
    ∧ ((calculate_schedule_impact (some old) (some nw)).improvement =
          some true ↔
        nw.metrics.average_delay < old.metrics.average_delay) := by
  refine ⟨rfl, ?_, ?_⟩
  · intro t ht
    exact List.mem_map_of_mem _ ht
  · simp [calculate_schedule_impact]

/-- Witness for C8 (amended) at the concrete schedule pair. -/
theorem claim_C8_witness :
    "TX" ∈ (calculate_schedule_impact (some oldSched)
      (some newSched)).affected_trains
    ∧ ((calculate_schedule_impact (some oldSched)
          (some newSched)).improvement = some true ↔
        newSched.metrics.average_delay < oldSched.metrics.average_delay) :=
  ⟨(claim_C8_impact_amended oldSched newSched).2.1
      ⟨"TX", "12001", 3, [⟨"S1", 10, 15, 5⟩]⟩ (by decide),
   (claim_C8_impact_amended oldSched newSched).2.2⟩

/-- Writing key `k` of a dict leaves every other key's lookup unchanged. -/
theorem dictGet_dictSet_ne {α : Type} (d : List (String × α))
    (k k' : String) (v : α) (hne : k' ≠ k) :
    dictGet (dictSet d k v) k' = dictGet d k' := by
  induction d with
  | nil => rfl
  | cons p rest ih =>
      by_cases hk : p.1 == k
      · have hpk : p.1 = k := eq_of_beq hk
        have hk' : (p.1 == k') = false := by
          subst hpk
          exact beq_eq_false_iff_ne.mpr (fun h => hne h.symm)
        simp [dictSet, dictGet, List.find?, hk, hk']
      · by_cases hk2 : p.1 == k'
        · simp [dictSet, dictGet, List.find?, hk, hk2]
        · simp only [dictSet, hk, Bool.false_eq_true, if_false]
          rw [show ((p.1, p.2) : String × α) = p from rfl]
          simp only [dictGet, List.find?, hk2]
          exact ih

/-- Invariant transport across one network operation: any per-section
property preserved by the three successful-path section transforms (under
their guards) is preserved at every key by every operation. -/
theorem netOp_preserves (inv : TrackSection → Prop) (net : RailwayNetwork)
    (op : NetOp) (k : String)
    (hres : ∀ (sec : TrackSection) (tid : String), inv sec →
      sec.current_status = SectionStatus.available →
      sec.reserved_for = none →
      inv { sec with reserved_for := some tid,
                     current_status := SectionStatus.reserved })
    (hocc : ∀ (sec : TrackSection) (tid : String), inv sec →
      (sec.current_status = SectionStatus.available ∨
        sec.current_status = SectionStatus.reserved) →
      sec.occupying_trains.length < sec.max_trains →
      inv { sec with occupying_trains := sec.occupying_trains ++ [tid],
                     current_status := SectionStatus.occupied,
                     reserved_for := none })
    (hrel : ∀ (sec : TrackSection) (tid : String), inv sec →
      tid ∈ sec.occupying_trains →
      inv { sec with
            occupying_trains := sec.occupying_trains.erase tid,
            current_status :=
              if sec.occupying_trains.erase tid = [] then
                SectionStatus.available
              else sec.current_status })
    (h : ∀ s, dictGet net.sections k = some s → inv s) :
    ∀ s, dictGet (op.apply net).sections k = some s → inv s := by
  cases op with
  | reserve sid tid =>
      simp only [NetOp.apply]
      unfold reserve_section
      cases hd : dictGet net.sections sid with
      | none => exact h
      | some sec =>
          by_cases hc : sec.current_status = SectionStatus.available ∧
            sec.reserved_for = none
          · dsimp only
            rw [if_pos hc]
            by_cases hk : k = sid
            · subst hk
              intro s hs
              dsimp only at hs
              rw [dictGet_dictSet_self _ _ _ sec hd, Option.some.injEq] at hs
              subst hs
              exact hres sec tid (h sec hd) hc.1 hc.2
            · intro s hs
              dsimp only at hs
              rw [dictGet_dictSet_ne _ _ _ _ hk] at hs
              exact h s hs
          · dsimp only
            rw [if_neg hc]
            exact h
  | occupy sid tid =>
      simp only [NetOp.apply]
      unfold occupy_section
      cases hd : dictGet net.sections sid with
      | none => exact h
      | some sec =>
          by_cases hc : (sec.current_status = SectionStatus.available ∨
              sec.current_status = SectionStatus.reserved) ∧
            sec.occupying_trains.length < sec.max_trains
          · dsimp only
            rw [if_pos hc]
            by_cases hk : k = sid
            · subst hk
              intro s hs
              dsimp only at hs
              rw [dictGet_dictSet_self _ _ _ sec hd, Option.some.injEq] at hs
              subst hs
              exact hocc sec tid (h sec hd) hc.1 hc.2
            · intro s hs
              dsimp only at hs
              rw [dictGet_dictSet_ne _ _ _ _ hk] at hs
              exact h s hs
          · dsimp only
            rw [if_neg hc]
            exact h
  | release sid tid =>
      simp only [NetOp.apply]
      unfold release_section
      cases hd : dictGet net.sections sid with
      | none => exact h
      | some sec =>
          by_cases hc : tid ∈ sec.occupying_trains
          · dsimp only
            rw [if_pos hc]
            by_cases hk : k = sid
            · subst hk
              intro s hs
              dsimp only at hs
              rw [dictGet_dictSet_self _ _ _ sec hd, Option.some.injEq] at hs
              subst hs
              exact hrel sec tid (h sec hd) hc
            · intro s hs
              dsimp only at hs
              rw [dictGet_dictSet_ne _ _ _ _ hk] at hs
              exact h s hs
          · dsimp only
            rw [if_neg hc]
            exact h

/-- The single-occupant invariant: at most one occupant, and a non-empty
occupant list only in status `occupied`. -/
def occAtMostOne (s : TrackSection) : Prop :=
  s.occupying_trains.length ≤ 1 ∧
  (s.current_status = SectionStatus.occupied ∨ s.occupying_trains = [])

/-- `occAtMostOne` is preserved at every key by every operation
sequence. -/
theorem applyOps_occAtMostOne (ops : List NetOp) (net : RailwayNetwork)
    (k : String) (h : ∀ s, dictGet net.sections k = some s → occAtMostOne s) :
    ∀ s, dictGet (applyOps net ops).sections k = some s → occAtMostOne s := by
  induction ops generalizing net with
  | nil => exact h
  | cons op rest ih =>
      refine ih (op.apply net) (netOp_preserves occAtMostOne net op k
        ?_ ?_ ?_ h)
      · intro sec tid hinv hav _
        refine ⟨hinv.1, Or.inr ?_⟩
        rcases hinv.2 with hocc | hemp
        · rw [hav] at hocc; cases hocc
        · exact hemp
      · intro sec tid hinv hav _
        have hemp : sec.occupying_trains = [] := by
          rcases hinv.2 with hocc | hemp
          · rcases hav with hav | hav <;> rw [hav] at hocc <;> cases hocc
          · exact hemp
        rw [hemp]
        exact ⟨by simp, Or.inl rfl⟩
      · intro sec tid hinv hmem
        constructor
        · calc (sec.occupying_trains.erase tid).length
              ≤ sec.occupying_trains.length := List.length_erase_le _ _
            _ ≤ 1 := hinv.1
        · by_cases he : sec.occupying_trains.erase tid = []
          · exact Or.inr he
          · rw [if_neg he]
            left
            rcases hinv.2 with hocc | hemp
            · exact hocc
            · rw [hemp] at hmem; cases hmem

/-- The capacity bound `|occupants| ≤ max_trains` is preserved at every
key by every operation sequence. -/
theorem applyOps_capacity (ops : List NetOp) (net : RailwayNetwork)
    (k : String)
    (h : ∀ s, dictGet net.sections k = some s →
      s.occupying_trains.length ≤ s.max_trains) :
    ∀ s, dictGet (applyOps net ops).sections k = some s →
      s.occupying_trains.length ≤ s.max_trains := by
  induction ops generalizing net with
  | nil => exact h
  | cons op rest ih =>
      refine ih (op.apply net) (netOp_preserves
        (fun s => s.occupying_trains.length ≤ s.max_trains) net op k
        ?_ ?_ ?_ h)
      · intro sec tid hinv _ _; exact hinv
      · intro sec tid _ _ hlt
        simpa using hlt
      · intro sec tid hinv _
        calc (sec.occupying_trains.erase tid).length
            ≤ sec.occupying_trains.length := List.length_erase_le _ _
          _ ≤ sec.max_trains := hinv

/-- C10: occupancy through the three mutation operations. Starting from a
section with no occupants, every reserve/occupy/release sequence leaves it
with at most one occupant — even when `max_trains > 1` — because a
successful occupy sets the status to `occupied` and further occupies
require status available or reserved; an occupy on a section in status
`occupied` always fails; and `|occupants| ≤ max_trains` holds after any
operation sequence whenever it held initially, for every section. -/
theorem claim_C10_occupancy_invariants (ops : List NetOp)
    (net0 : RailwayNetwork) (sid : String) :
    (∀ s0, dictGet net0.sections sid = some s0 →
      s0.occupying_trains = [] →
      ∀ s, dictGet (applyOps net0 ops).sections sid = some s →
        s.occupying_trains.length ≤ 1)
    ∧ ((∀ k s, dictGet net0.sections k = some s →
          s.occupying_trains.length ≤ s.max_trains) →
        ∀ k s, dictGet (applyOps net0 ops).sections k = some s →
          s.occupying_trains.length ≤ s.max_trains)
    ∧ (∀ tid s, dictGet net0.sections sid = some s →
        s.current_status = SectionStatus.occupied →
        (occupy_section net0 sid tid).1 = false) := by
  refine ⟨?_, ?_, ?_⟩
  · intro s0 h0 hemp s hs
    refine (applyOps_occAtMostOne ops net0 sid ?_ s hs).1
    intro s' hs'
    rw [h0, Option.some.injEq] at hs'
    subst hs'
    exact ⟨by simp [hemp], Or.inr hemp⟩
  · intro hcap k s hs
    exact applyOps_capacity ops net0 k (fun s' hs' => hcap k s' hs') s hs
  · intro tid s hs hstat
    unfold occupy_section
    rw [hs]
    dsimp only
    rw [if_neg]
    rintro ⟨hav | hav, -⟩ <;> rw [hstat] at hav <;> cases hav

/-- A capacity-2 double-line section with no occupants. -/
def secC : TrackSection :=
  { section_id := "SC", section_type := .double_line, length_km := 5,
    max_trains := 2 }

/-- The state of `secC` after train T1 occupies it. -/
def secC1 : TrackSection :=
  { section_id := "SC", section_type := .double_line, length_km := 5,
    max_trains := 2, occupying_trains := ["T1"],
    current_status := .occupied, reserved_for := none }

/-- A single-section network around `secC`. -/
def netC : RailwayNetwork := { sections := [("SC", secC)] }

/-- Two successive occupy attempts on the capacity-2 section. -/
def opsC : List NetOp := [.occupy "SC" "T1", .occupy "SC" "T2"]

/-- Witness for C10: after two occupy attempts on the empty capacity-2
section SC, at most one train occupies it (T2's occupy failed while T1
remained), the capacity bound holds, and an occupy on the occupied section
SB fails. -/
theorem claim_C10_witness :
    secC1.occupying_trains.length ≤ 1
    ∧ secC1.occupying_trains.length ≤ secC1.max_trains
    ∧ (occupy_section netB "SB" "T2").1 = false := by
  have h := claim_C10_occupancy_invariants opsC netC "SC"
  have hB := claim_C10_occupancy_invariants ([] : List NetOp) netB "SB"
  refine ⟨h.1 secC (by decide) (by decide) secC1 (by decide),
          h.2.1 ?_ "SC" secC1 (by decide),
          hB.2.2 "T2"
            { section_id := "SB", section_type := .single_line,
              length_km := 10, max_trains := 1,
              current_status := .occupied, occupying_trains := ["T1"] }
            (by decide) (by decide)⟩
  intro k s hks
  revert hks
  simp only [netC, dictGet, List.find?]
  by_cases hk : ("SC" == k)
  · simp only [hk]
    intro hks
    rw [Option.map_some', Option.some.injEq] at hks
    subst hks
    decide
  · simp only [hk]
    intro hks
    cases hks

/-- The occurrence list stored under a key of the `section_usage` dict
(empty when the key is absent). -/
def usageOf (d : List (String × List Train)) (sid : String) : List Train :=
  (dictGet d sid).getD []

/-- Lookup at the head key of an association list. -/
theorem dictGet_cons_self {α : Type} (k : String) (v : α)
    (d : List (String × α)) : dictGet ((k, v) :: d) k = some v := by
  simp [dictGet, List.find?]

/-- Lookup skips a head entry with a different key. -/
theorem dictGet_cons_ne {α : Type} (k' k : String) (v : α)
    (d : List (String × α)) (h : k' ≠ k) :
    dictGet ((k', v) :: d) k = dictGet d k := by
  simp [dictGet, List.find?, beq_eq_false_iff_ne.mpr h]

/-- Appending one train under key `k` extends exactly that key's list. -/
theorem usageOf_usageAppend (k : String) (t : Train) :
    ∀ (d : List (String × List Train)) (sid : String),
      usageOf (usageAppend d k t) sid =
        if sid = k then usageOf d sid ++ [t] else usageOf d sid := by
  intro d
  induction d with
  | nil =>
      intro sid
      by_cases h : sid = k
      · subst h; simp [usageAppend, usageOf, dictGet_cons_self, dictGet]
      · rw [if_neg h]
        show usageOf [(k, [t])] sid = usageOf [] sid
        unfold usageOf
        rw [dictGet_cons_ne _ _ _ _ (fun hh => h hh.symm)]
  | cons p rest ih =>
      intro sid
      obtain ⟨k', v'⟩ := p
      by_cases h1 : k' = k
      · subst h1
        simp only [usageAppend, beq_self_eq_true, if_true]
        by_cases h2 : sid = k'
        · subst h2
          unfold usageOf
          rw [if_pos rfl, dictGet_cons_self, dictGet_cons_self]
          rfl
        · unfold usageOf
          rw [if_neg h2, dictGet_cons_ne _ _ _ _ (fun hh => h2 hh.symm),
            dictGet_cons_ne _ _ _ _ (fun hh => h2 hh.symm)]
      · have hb1 : (k' == k) = false := beq_eq_false_iff_ne.mpr h1
        simp only [usageAppend, hb1, Bool.false_eq_true, if_false]
        by_cases h2 : sid = k'
        · subst h2
          unfold usageOf
          rw [if_neg h1, dictGet_cons_self, dictGet_cons_self]
        · unfold usageOf
          rw [dictGet_cons_ne _ _ _ _ (fun hh => h2 hh.symm),
            dictGet_cons_ne _ _ _ _ (fun hh => h2 hh.symm)]
          exact ih sid

/-- Folding one train's route into the usage dict appends one copy of the
train per occurrence of the key in the route. -/
theorem usageOf_routeFold (t : Train) :
    ∀ (route : List String) (d : List (String × List Train)) (sid : String),
      usageOf (route.foldl (fun d s => usageAppend d s t) d) sid =
        usageOf d sid ++ List.replicate (route.count sid) t := by
  intro route
  induction route with
  | nil => intro d sid; simp
  | cons r rs ih =>
      intro d sid
      rw [List.foldl_cons, ih, usageOf_usageAppend]
      by_cases hs : sid = r
      · subst hs
        rw [if_pos rfl, List.count_cons_self, List.append_assoc]
        simp [List.replicate_succ]
      · rw [if_neg hs, List.count_cons_of_ne hs]

/-- The full `section_usage` dict stores, under each section, one copy of
each train per occurrence of the section in the train's resolved route,
in train order. -/
theorem usageOf_sectionUsage (net : RailwayNetwork) :
    ∀ (trains : List Train) (d : List (String × List Train)) (sid : String),
      usageOf (trains.foldl
        (fun d train => (getTrainRoute net train).foldl
          (fun d s => usageAppend d s train) d) d) sid =
      usageOf d sid ++ trains.flatMap
        (fun t => List.replicate ((getTrainRoute net t).count sid) t) := by
  intro trains
  induction trains with
  | nil => intro d sid; simp
  | cons t ts ih =>
      intro d sid
      rw [List.foldl_cons, ih, usageOf_routeFold, List.flatMap_cons,
        List.append_assoc]

/-- With duplicate-free routes, the occurrence list under a section is
exactly the list of distinct trains whose route uses it. -/
theorem usage_eq_filter (net : RailwayNetwork) (trains : List Train)
    (h : ∀ t ∈ trains, (getTrainRoute net t).Nodup) (sid : String) :
    usageOf (sectionUsage net trains) sid =
      trains.filter (fun t => decide (sid ∈ getTrainRoute net t)) := by
  have hbase : usageOf ([] : List (String × List Train)) sid = [] := by
    simp [usageOf, dictGet]
  rw [sectionUsage, usageOf_sectionUsage, hbase, List.nil_append]
  induction trains with
  | nil => simp
  | cons t ts ih =>
      rw [List.flatMap_cons, List.filter_cons]
      have hts := ih (fun u hu => h u (List.mem_cons_of_mem t hu))
      by_cases hm : sid ∈ getTrainRoute net t
      · rw [List.count_eq_one_of_mem (h t (List.mem_cons_self t ts)) hm]
        simp [hm, hts]
      · rw [List.count_eq_zero_of_not_mem hm]
        simp [hm, hts]

/-- Keys present in the dict after one append. -/
theorem usageAppend_keys_mem (k : String) (t : Train) :
    ∀ (d : List (String × List Train)) (x : String),
      x ∈ (usageAppend d k t).map Prod.fst ↔
        x ∈ d.map Prod.fst ∨ x = k := by
  intro d
  induction d with
  | nil => intro x; simp [usageAppend]
  | cons p rest ih =>
      intro x
      obtain ⟨k', v'⟩ := p
      by_cases h1 : k' == k
      · have h1' : k' = k := eq_of_beq h1
        subst h1'
        simp only [usageAppend, beq_self_eq_true, if_true, List.map_cons,
          List.mem_cons]
        constructor
        · rintro (h | h)
          · exact Or.inr h
          · exact Or.inl (Or.inr h)
        · rintro (h | h)
          · rcases h with h | h
            · exact Or.inl h
            · exact Or.inr h
          · exact Or.inl h
      · simp only [usageAppend, h1, Bool.false_eq_true, if_false,
          List.map_cons, List.mem_cons, ih]
        tauto

/-- Appending preserves distinctness of the dict's keys. -/
theorem usageAppend_keys_nodup (k : String) (t : Train) :
    ∀ (d : List (String × List Train)),
      (d.map Prod.fst).Nodup → ((usageAppend d k t).map Prod.fst).Nodup := by
  intro d
  induction d with
  | nil => intro _; simp [usageAppend]
  | cons p rest ih =>
      intro hnd
      obtain ⟨k', v'⟩ := p
      rw [List.map_cons, List.nodup_cons] at hnd
      by_cases h1 : k' == k
      · have h1' : k' = k := eq_of_beq h1
        subst h1'
        simpa [usageAppend, List.nodup_cons] using hnd
      · have h1' : k' ≠ k := fun hh => absurd (beq_iff_eq.mpr hh)
          (by simpa using h1)
        simp only [usageAppend, h1, Bool.false_eq_true, if_false,
          List.map_cons, List.nodup_cons]
        refine ⟨?_, ih hnd.2⟩
        rw [usageAppend_keys_mem]
        rintro (h | h)
        · exact hnd.1 h
        · exact h1' h

/-- The `section_usage` dict has distinct keys. -/
theorem sectionUsage_keys_nodup (net : RailwayNetwork)
    (trains : List Train) :
    ((sectionUsage net trains).map Prod.fst).Nodup := by
  rw [sectionUsage]
  have route_fold : ∀ (route : List String) (t : Train)
      (d : List (String × List Train)), (d.map Prod.fst).Nodup →
      ((route.foldl (fun d s => usageAppend d s t) d).map Prod.fst).Nodup := by
    intro route
    induction route with
    | nil => intro t d h; exact h
    | cons r rs ih =>
        intro t d h
        rw [List.foldl_cons]
        exact ih t _ (usageAppend_keys_nodup r t d h)
  have trains_fold : ∀ (ts : List Train) (d : List (String × List Train)),
      (d.map Prod.fst).Nodup →
      ((ts.foldl (fun d train => (getTrainRoute net train).foldl
        (fun d s => usageAppend d s train) d) d).map Prod.fst).Nodup := by
    intro ts
    induction ts with
    | nil => intro d h; exact h
    | cons t rest ih =>
        intro d h
        rw [List.foldl_cons]
        exact ih _ (route_fold _ t d h)
  exact trains_fold trains [] (by simp)

/-- Every conflict an entry contributes carries that entry's section
identifier. -/
theorem entryConflicts_section_id (net : RailwayNetwork)
    (entry : String × List Train) (c : TrainConflict)
    (h : c ∈ entryConflicts net entry) : c.section_id = entry.1 := by
  unfold entryConflicts at h
  split at h
  · split at h
    · split at h
      · rw [List.mem_map] at h
        obtain ⟨q, -, hq⟩ := h
        rw [← hq]
        rfl
      · cases h
    · cases h
  · cases h

/-- In a dict with distinct keys, every entry is what lookup at its key
returns. -/
theorem dictGet_of_mem_nodup {α : Type} (d : List (String × α))
    (hnd : (d.map Prod.fst).Nodup) (e : String × α) (he : e ∈ d) :
    dictGet d e.1 = some e.2 := by
  induction d with
  | nil => cases he
  | cons p rest ih =>
      obtain ⟨k', v'⟩ := p
      rw [List.map_cons, List.nodup_cons] at hnd
      rcases List.mem_cons.mp he with he | he
      · subst he
        exact dictGet_cons_self _ _ _
      · have hne : k' ≠ e.1 := by
          intro hh
          refine hnd.1 ?_
          rw [hh]
          exact List.mem_map.mpr ⟨e, he, rfl⟩
        rw [dictGet_cons_ne _ _ _ _ hne]
        exact ih hnd.2 he

/-- Localization: counting conflicts that carry section identifier `sid`
over the whole detection output equals counting them over the single
entry of the usage dict keyed `sid`. -/
theorem countP_flatMap_entryConflicts (net : RailwayNetwork)
    (p : TrainConflict → Bool) (sid : String)
    (hp : ∀ c, p c = true → c.section_id = sid) :
    ∀ (d : List (String × List Train)), (d.map Prod.fst).Nodup →
      (d.flatMap (entryConflicts net)).countP p =
        (entryConflicts net (sid, usageOf d sid)).countP p := by
  intro d
  induction d with
  | nil =>
      intro _
      have : usageOf ([] : List (String × List Train)) sid = [] := by
        simp [usageOf, dictGet]
      rw [this]
      simp [entryConflicts]
  | cons e rest ih =>
      intro hnd
      rw [List.map_cons, List.nodup_cons] at hnd
      rw [List.flatMap_cons, List.countP_append]
      obtain ⟨k, v⟩ := e
      by_cases hk : sid = k
      · subst hk
        have h1 : usageOf ((sid, v) :: rest) sid = v := by
          unfold usageOf
          rw [dictGet_cons_self]
          rfl
        have h2 : (rest.flatMap (entryConflicts net)).countP p = 0 := by
          rw [List.countP_eq_zero]
          intro c hc
          rw [List.mem_flatMap] at hc
          obtain ⟨e', he', hc⟩ := hc
          intro hpc
          have hcs := entryConflicts_section_id net e' c hc
          have : e'.1 ∈ rest.map Prod.fst := List.mem_map_of_mem Prod.fst he'
          rw [← hcs, hp c hpc] at this
          exact hnd.1 this
        rw [h1, h2, Nat.add_zero]
      · have h1 : usageOf ((k, v) :: rest) sid = usageOf rest sid := by
          unfold usageOf
          rw [dictGet_cons_ne _ _ _ _ (fun hh => hk hh.symm)]
        have h2 : (entryConflicts net (k, v)).countP p = 0 := by
          rw [List.countP_eq_zero]
          intro c hc hpc
          have hcs := entryConflicts_section_id net (k, v) c hc
          exact hk ((hp c hpc).symm.trans hcs)
        rw [h1, h2, ih hnd.2, Nat.zero_add]

/-- Both components of an index-ordered pair belong to the list. -/
theorem orderedPairs_mem {α : Type} :
    ∀ (l : List α) (x y : α), (x, y) ∈ orderedPairs l → x ∈ l ∧ y ∈ l := by
  intro l
  induction l with
  | nil => intro x y h; cases h
  | cons c cs ih =>
      intro x y h
      rw [orderedPairs, List.mem_append] at h
      rcases h with h | h
      · rw [List.mem_map] at h
        obtain ⟨y', hy', hxy⟩ := h
        rw [Prod.mk.injEq] at hxy
        obtain ⟨hx, hy⟩ := hxy
        subst hx
        subst hy
        exact ⟨List.mem_cons_self _ _, List.mem_cons_of_mem _ hy'⟩
      · obtain ⟨hx, hy⟩ := ih x y h
        exact ⟨List.mem_cons_of_mem _ hx, List.mem_cons_of_mem _ hy⟩

/-- In a duplicate-free list, index-ordered pairs have distinct
components. -/
theorem orderedPairs_ne {α : Type} :
    ∀ (l : List α), l.Nodup → ∀ x y, (x, y) ∈ orderedPairs l → x ≠ y := by
  intro l
  induction l with
  | nil => intro _ x y h; cases h
  | cons c cs ih =>
      intro hnd x y h
      rw [List.nodup_cons] at hnd
      rw [orderedPairs, List.mem_append] at h
      rcases h with h | h
      · rw [List.mem_map] at h
        obtain ⟨y', hy', hxy⟩ := h
        rw [Prod.mk.injEq] at hxy
        obtain ⟨hx, hy⟩ := hxy
        subst hx
        subst hy
        intro hcy
        exact hnd.1 (hcy ▸ hy')
      · exact ih hnd.2 x y h

/-- In a duplicate-free list, every unordered pair of distinct members is
represented exactly once among the index-ordered pairs. -/
theorem orderedPairs_countP_pair {α : Type} [DecidableEq α] :
    ∀ (l : List α), l.Nodup → ∀ a b : α, a ∈ l → b ∈ l → a ≠ b →
      (orderedPairs l).countP
        (fun q => decide (q = (a, b) ∨ q = (b, a))) = 1 := by
  intro l
  induction l with
  | nil => intro _ a b ha _ _; cases ha
  | cons c cs ih =>
      intro hnd a b ha hb hab
      rw [List.nodup_cons] at hnd
      rw [orderedPairs, List.countP_append, List.countP_map]
      by_cases hac : a = c
      · subst hac
        have hbcs : b ∈ cs := by
          rcases List.mem_cons.mp hb with h | h
          · exact absurd h.symm hab
          · exact h
        have hmap : cs.countP
            ((fun q => decide (q = (a, b) ∨ q = (b, a))) ∘
              fun y => (a, y)) = 1 := by
          rw [List.countP_congr (q := fun y => y == b)]
          · show cs.count b = 1
            exact List.count_eq_one_of_mem hnd.2 hbcs
          · intro y _
            have hiff : ((a, y) = (a, b) ∨ (a, y) = (b, a)) ↔ y = b := by
              constructor
              · rintro (h | h)
                · rw [Prod.mk.injEq] at h
                  exact h.2
                · rw [Prod.mk.injEq] at h
                  exact absurd h.1 hab
              · intro h
                exact Or.inl (by rw [h])
            simp only [Function.comp_apply, decide_eq_true_eq, beq_iff_eq,
              hiff]
        have hrest : (orderedPairs cs).countP
            (fun q => decide (q = (a, b) ∨ q = (b, a))) = 0 := by
          rw [List.countP_eq_zero]
          rintro ⟨x, y⟩ hq hpq
          obtain ⟨hx, hy⟩ := orderedPairs_mem cs x y hq
          rw [decide_eq_true_eq, Prod.mk.injEq, Prod.mk.injEq] at hpq
          rcases hpq with ⟨h1, -⟩ | ⟨-, h2⟩
          · exact hnd.1 (h1 ▸ hx)
          · exact hnd.1 (h2 ▸ hy)
        rw [hmap, hrest]
      · by_cases hbc : b = c
        · subst hbc
          have hacs : a ∈ cs := by
            rcases List.mem_cons.mp ha with h | h
            · exact absurd h hac
            · exact h
          have hmap : cs.countP
              ((fun q => decide (q = (a, b) ∨ q = (b, a))) ∘
                fun y => (b, y)) = 1 := by
            rw [List.countP_congr (q := fun y => y == a)]
            · show cs.count a = 1
              exact List.count_eq_one_of_mem hnd.2 hacs
            · intro y _
              have hiff : ((b, y) = (a, b) ∨ (b, y) = (b, a)) ↔ y = a := by
                constructor
                · rintro (h | h)
                  · rw [Prod.mk.injEq] at h
                    exact absurd h.1.symm hac
                  · rw [Prod.mk.injEq] at h
                    exact h.2
                · intro h
                  exact Or.inr (by rw [h])
              simp only [Function.comp_apply, decide_eq_true_eq, beq_iff_eq,
                hiff]
          have hrest : (orderedPairs cs).countP
              (fun q => decide (q = (a, b) ∨ q = (b, a))) = 0 := by
            rw [List.countP_eq_zero]
            rintro ⟨x, y⟩ hq hpq
            obtain ⟨hx, hy⟩ := orderedPairs_mem cs x y hq
            rw [decide_eq_true_eq, Prod.mk.injEq, Prod.mk.injEq] at hpq
            rcases hpq with ⟨-, h2⟩ | ⟨h1, -⟩
            · exact hnd.1 (h2 ▸ hy)
            · exact hnd.1 (h1 ▸ hx)
          rw [hmap, hrest]
        · have hacs : a ∈ cs := by
            rcases List.mem_cons.mp ha with h | h
            · exact absurd h hac
            · exact h
          have hbcs : b ∈ cs := by
            rcases List.mem_cons.mp hb with h | h
            · exact absurd h hbc
            · exact h
          have hmap : cs.countP
              ((fun q => decide (q = (a, b) ∨ q = (b, a))) ∘
                fun y => (c, y)) = 0 := by
            rw [List.countP_eq_zero]
            intro y _ hpq
            simp only [Function.comp_apply, decide_eq_true_eq] at hpq
            rcases hpq with h | h
            · rw [Prod.mk.injEq] at h
              exact hac h.1.symm
            · rw [Prod.mk.injEq] at h
              exact hbc h.1.symm
          rw [hmap, ih hnd.2 a b hacs hbcs hab, Nat.zero_add]

/-- A list with two distinct members has length at least two. -/
theorem one_lt_length_of_two_mem {α : Type} (l : List α) (a b : α)
    (ha : a ∈ l) (hb : b ∈ l) (hab : a ≠ b) : 1 < l.length := by
  match l with
  | [] => cases ha
  | [x] =>
      rw [List.mem_singleton] at ha hb
      exact absurd (ha.trans hb.symm) hab
  | x :: y :: rest => simp [List.length_cons]

/-- Stated from the claim's wording: the distinct trains of the input
whose resolved route uses the given section. -/
def distinctUsers (net : RailwayNetwork) (trains : List Train)
    (sid : String) : List Train :=
  trains.filter (fun t => decide (sid ∈ getTrainRoute net t))

/-- C6 as amended: when every route is duplicate-free and train
identifiers are unique, `detect_conflicts` emits, for each section known
to the topology whose distinct users exceed its capacity, exactly one
conflict per unordered pair of distinct users; every conflict on a section
carries severity 3 and the span [earliest of the two scheduled
departures, latest of the two scheduled arrivals] of a pair of distinct
users; and no conflict is emitted for an unknown section or for a section
whose users are within capacity. (Without the duplicate-free-route
hypothesis the claim fails: the code counts route occurrences, not
distinct trains.) -/
theorem claim_C6_detect_conflicts_amended (net : RailwayNetwork)
    (trains : List Train)
    (hroutes : ∀ t ∈ trains, (getTrainRoute net t).Nodup)
    (hids : (trains.map Train.train_id).Nodup) (sid : String) :
    (dictGet net.sections sid = none →
      (detect_conflicts net trains).countP
        (fun c => c.section_id == sid) = 0)
    ∧ (∀ sec : TrackSection, dictGet net.sections sid = some sec →
        ((distinctUsers net trains sid).length ≤ sec.max_trains →
          (detect_conflicts net trains).countP
            (fun c => c.section_id == sid) = 0)
        ∧ ((distinctUsers net trains sid).length > sec.max_trains →
            ∀ a ∈ distinctUsers net trains sid,
            ∀ b ∈ distinctUsers net trains sid,
              a.train_id ≠ b.train_id →
              (detect_conflicts net trains).countP (fun c =>
                c.section_id == sid &&
                (c.train_ids == [a.train_id, b.train_id] ||
                 c.train_ids == [b.train_id, a.train_id])) = 1))
    ∧ (∀ c ∈ detect_conflicts net trains, c.section_id = sid →
        c.severity = 3 ∧ c.conflict_type = "capacity_exceeded" ∧
        ∃ x ∈ distinctUsers net trains sid,
        ∃ y ∈ distinctUsers net trains sid,
          x.train_id ≠ y.train_id ∧
          c.train_ids = [x.train_id, y.train_id] ∧
          c.conflict_start = min x.scheduled_departure y.scheduled_departure ∧
          c.conflict_end = max x.scheduled_arrival y.scheduled_arrival) := by
  have husers : usageOf (sectionUsage net trains) sid =
      distinctUsers net trains sid :=
    usage_eq_filter net trains hroutes sid
  have hkeys := sectionUsage_keys_nodup net trains
  have htrainsnd : trains.Nodup := hids.of_map
  have husersnd : (distinctUsers net trains sid).Nodup :=
    htrainsnd.filter _
  have husub : ∀ t ∈ distinctUsers net trains sid, t ∈ trains :=
    fun t ht => List.mem_of_mem_filter ht
  have hinj : ∀ x ∈ trains, ∀ y ∈ trains,
      x.train_id = y.train_id → x = y :=
    fun x hx y hy h => List.inj_on_of_nodup_map hids hx hy h
  refine ⟨?_, ?_, ?_⟩
  · -- unknown section: nothing emitted
    intro hnone
    rw [detect_conflicts, countP_flatMap_entryConflicts net _ sid
      (fun c hc => eq_of_beq hc) _ hkeys]
    by_cases h1 : (usageOf (sectionUsage net trains) sid).length > 1
    · simp [entryConflicts, h1, hnone]
    · simp [entryConflicts, h1]
  · intro sec hsec
    constructor
    · -- within capacity: nothing emitted
      intro hle
      rw [detect_conflicts, countP_flatMap_entryConflicts net _ sid
        (fun c hc => eq_of_beq hc) _ hkeys, husers]
      have hngt : ¬ (distinctUsers net trains sid).length >
          sec.max_trains := by omega
      by_cases h1 : (distinctUsers net trains sid).length > 1
      · simp [entryConflicts, h1, hsec, hngt]
      · simp [entryConflicts, h1]
    · -- over capacity: exactly one conflict per unordered pair
      intro hgt a ha b hb hab
      have habt : a ≠ b := fun h => hab (congrArg Train.train_id h)
      rw [detect_conflicts, countP_flatMap_entryConflicts net _ sid
        (fun c hc => eq_of_beq (by rw [Bool.and_eq_true] at hc; exact hc.1))
        _ hkeys, husers]
      have h1 : (distinctUsers net trains sid).length > 1 :=
        one_lt_length_of_two_mem _ a b ha hb habt
      unfold entryConflicts
      dsimp only
      rw [if_pos h1, hsec]
      dsimp only
      rw [if_pos hgt, List.countP_map]
      rw [List.countP_congr (q := fun q : Train × Train =>
        decide (q = (a, b) ∨ q = (b, a)))]
      · exact orderedPairs_countP_pair _ husersnd a b ha hb habt
      · rintro ⟨x, y⟩ hq
        obtain ⟨hx, hy⟩ := orderedPairs_mem _ x y hq
        have hiff1 : (x.train_id = a.train_id ∧ y.train_id = b.train_id) ↔
            (x = a ∧ y = b) := by
          constructor
          · rintro ⟨h1', h2'⟩
            exact ⟨hinj x (husub x hx) a (husub a ha) h1',
              hinj y (husub y hy) b (husub b hb) h2'⟩
          · rintro ⟨h1', h2'⟩
            exact ⟨congrArg Train.train_id h1', congrArg Train.train_id h2'⟩
        have hiff2 : (x.train_id = b.train_id ∧ y.train_id = a.train_id) ↔
            (x = b ∧ y = a) := by
          constructor
          · rintro ⟨h1', h2'⟩
            exact ⟨hinj x (husub x hx) b (husub b hb) h1',
              hinj y (husub y hy) a (husub a ha) h2'⟩
          · rintro ⟨h1', h2'⟩
            exact ⟨congrArg Train.train_id h1', congrArg Train.train_id h2'⟩
        simp only [Function.comp_apply, mkConflict, beq_self_eq_true,
          Bool.true_and, Bool.or_eq_true, beq_iff_eq, List.cons.injEq,
          and_true, decide_eq_true_eq, Prod.mk.injEq, hiff1, hiff2]
  · -- every emitted conflict's shape
    intro c hc hcsid
    rw [detect_conflicts, List.mem_flatMap] at hc
    obtain ⟨e, he, hce⟩ := hc
    obtain ⟨k, v⟩ := e
    have hk : k = sid := by
      have := entryConflicts_section_id net (k, v) c hce
      exact this.symm.trans hcsid
    subst hk
    have hv : v = distinctUsers net trains k := by
      have hval : dictGet (sectionUsage net trains) k = some v :=
        dictGet_of_mem_nodup _ hkeys (k, v) he
      rw [← husers]
      unfold usageOf
      rw [hval]
      rfl
    subst hv
    unfold entryConflicts at hce
    split at hce
    · split at hce
      · split at hce
        · rw [List.mem_map] at hce
          obtain ⟨⟨x, y⟩, hq, hcq⟩ := hce
          obtain ⟨hx, hy⟩ := orderedPairs_mem _ x y hq
          have hxy : x ≠ y := orderedPairs_ne _ husersnd x y hq
          have hxyid : x.train_id ≠ y.train_id := fun h =>
            hxy (hinj x (husub x hx) y (husub y hy) h)
          subst hcq
          exact ⟨rfl, rfl, x, hx, y, hy, hxyid, rfl, rfl, rfl⟩
        · cases hce
      · cases hce
    · cases hce

/-- Counterexample to C6 as stated: `trainZ`'s route visits section S1
twice, so only ONE distinct train uses the capacity-1 section — within
capacity, so the claim says no conflict is emitted — yet the code counts
route occurrences and emits a conflict pairing the train with itself. -/
theorem claim_C6_counterexample :
    detect_conflicts netA [trainZ] =
      [{ conflict_id := "CONF_TZ_TZ_S1", train_ids := ["TZ", "TZ"],
         section_id := "S1", conflict_type := "capacity_exceeded",
         conflict_start := 60, conflict_end := 240, severity := 3 }]
    ∧ (distinctUsers netA [trainZ] "S1").length = 1
    ∧ (dictGet netA.sections "S1").map TrackSection.max_trains = some 1 := by
  refine ⟨?_, by decide, ?_⟩
  · decide
  · simp [dictGet, netA, secS1, secS2, secP1]

/-- Witness for C6 (amended): trains TX and TY both route over the
capacity-1 section S1 of `netA`; exactly one conflict is emitted for the
unordered pair. -/
theorem claim_C6_witness :
    (detect_conflicts netA [trainX, trainY]).countP (fun c =>
      c.section_id == "S1" &&
      (c.train_ids == ["TX", "TY"] || c.train_ids == ["TY", "TX"])) = 1 :=
  (((claim_C6_detect_conflicts_amended netA [trainX, trainY]
      (by decide) (by decide) "S1").2.1 secS1 (by decide)).2
    (by decide) trainX (by decide) trainY (by decide) (by decide))
